import Mathlib

/-!
Verification development for the FastAPI pagination templates
(cursor_pagination.py, offset_pagination.py).

Strings are modelled as lists of byte values (`List Nat`, each element
below 256), which is the representation the codec actually manipulates:
Python `str.encode`/`bytes.decode` convert between text and UTF-8 bytes,
and `b64encode`/`b64decode` work on bytes.  Machine integers from the
request surface are modelled as `Int` (Python integers are unbounded).
-/

/-- Python list slicing `l[:n]`: for non-negative `n` it takes the first
`n` elements, for negative `n` it drops `-n` elements from the end. -/
def pyTake {α : Type} (l : List α) (n : Int) : List α :=
  if 0 ≤ n then l.take n.toNat else l.take ((l.length : Int) + n).toNat

/-! ## Base64 codec (model of Python `base64.b64encode` / `b64decode`)

`encode_cursor` (cursor_pagination.py lines 38-40) and `decode_cursor`
(lines 43-48) delegate to the standard base64 alphabet with `=` padding.
`b64decode` in its default non-strict mode first discards characters
outside the alphabet and then requires the remaining length to be a
multiple of four; any violation raises, which `decode_cursor` catches. -/

/-- The standard base64 alphabet: sextet index to ASCII byte. -/
def b64chr (i : Nat) : Nat :=
  if i < 26 then 65 + i
  else if i < 52 then 71 + i
  else if i < 62 then i - 4
  else if i = 62 then 43
  else 47

/-- Inverse alphabet lookup: ASCII byte to sextet index, `none` for
bytes outside the base64 alphabet. -/
def b64idx (c : Nat) : Option Nat :=
  if 65 ≤ c ∧ c ≤ 90 then some (c - 65)
  else if 97 ≤ c ∧ c ≤ 122 then some (c - 71)
  else if 48 ≤ c ∧ c ≤ 57 then some (c + 4)
  else if c = 43 then some 62
  else if c = 47 then some 63
  else none

/-- A byte that the non-strict decoder keeps: alphabet bytes and the
padding byte 61 (`=`); everything else is discarded before decoding. -/
def isKept (c : Nat) : Bool :=
  (b64idx c).isSome || c == 61

/-- Base64 encoding of a byte sequence, three bytes to four characters,
with `=` padding for a trailing group of one or two bytes. -/
def b64encodeBytes : List Nat → List Nat
  | [] => []
  | [a] => [b64chr (a / 4), b64chr (a % 4 * 16), 61, 61]
  | [a, b] => [b64chr (a / 4), b64chr (a % 4 * 16 + b / 16), b64chr (b % 16 * 4), 61]
  | a :: b :: c :: rest =>
    b64chr (a / 4) :: b64chr (a % 4 * 16 + b / 16) ::
    b64chr (b % 16 * 4 + c / 64) :: b64chr (c % 64) :: b64encodeBytes rest

/-- Decode a base64 character stream four characters at a time; padding
is only legal in the final quad. `none` models `binascii.Error`. -/
def b64decodeQuads : List Nat → Option (List Nat)
  | [] => some []
  | a :: b :: c :: d :: rest =>
    match b64idx a, b64idx b with
    | some x, some y =>
      if c = 61 then
        if d = 61 ∧ rest = [] then some [x * 4 + y / 16] else none
      else
        match b64idx c with
        | some z =>
          if d = 61 then
            if rest = [] then some [x * 4 + y / 16, y % 16 * 16 + z / 4] else none
          else
            match b64idx d with
            | some w =>
              match b64decodeQuads rest with
              | some t =>
                some ((x * 4 + y / 16) :: (y % 16 * 16 + z / 4) :: (z % 4 * 64 + w) :: t)
              | none => none
            | none => none
        | none => none
    | _, _ => none
  | _ => none

/-- Model of Python `base64.b64decode` (default non-strict mode):
discard bytes outside alphabet-plus-padding, then decode; `none` models
a raised `binascii.Error`. -/
def b64decodeOpt (s : List Nat) : Option (List Nat) :=
  if (s.filter isKept).length % 4 = 0 then b64decodeQuads (s.filter isKept)
  else none

/-! ## UTF-8 validity (model of strict `bytes.decode`)

`decode_cursor` ends with `.decode()`, which raises on byte sequences
that are not valid UTF-8; the surrounding `try/except` turns that into
the empty-string sentinel. -/

/-- A UTF-8 continuation byte. -/
def isCont (c : Nat) : Bool :=
  decide (128 ≤ c ∧ c ≤ 191)

/-- Allowed first continuation byte after a three-byte leader
(excludes overlong forms and surrogates, as strict UTF-8 does). -/
def cont2Ok (b c : Nat) : Bool :=
  if b = 224 then decide (160 ≤ c ∧ c ≤ 191)
  else if b = 237 then decide (128 ≤ c ∧ c ≤ 159)
  else isCont c

/-- Allowed first continuation byte after a four-byte leader
(excludes overlong forms and code points above U+10FFFF). -/
def cont3Ok (b c : Nat) : Bool :=
  if b = 240 then decide (144 ≤ c ∧ c ≤ 191)
  else if b = 244 then decide (128 ≤ c ∧ c ≤ 143)
  else isCont c

/-- Strict UTF-8 validity of a byte sequence (RFC 3629 table, the check
Python's `bytes.decode()` performs). -/
def validUtf8 : List Nat → Bool
  | [] => true
  | b :: r =>
    if b < 128 then validUtf8 r
    else if b < 194 then false
    else if b < 224 then
      match r with
      | c :: r2 => isCont c && validUtf8 r2
      | [] => false
    else if b < 240 then
      match r with
      | c :: d :: r2 => cont2Ok b c && isCont d && validUtf8 r2
      | _ => false
    else if b < 245 then
      match r with
      | c :: d :: e :: r2 => cont3Ok b c && isCont d && isCont e && validUtf8 r2
      | _ => false
    else false

/-! ## Cursor codec (cursor_pagination.py lines 38-48) -/

/-- `encode_cursor` (lines 38-40): base64 of the UTF-8 bytes of the
value's textual representation.  The argument is that textual
representation, as bytes. -/
def encode_cursor (value : List Nat) : List Nat :=
  b64encodeBytes value

/-- `decode_cursor` (lines 43-48): base64-decode and UTF-8-check the
cursor; any failure is swallowed and yields the empty string. -/
def decode_cursor (cursor : List Nat) : List Nat :=
  match b64decodeOpt cursor with
  | some payload => if validUtf8 payload then payload else []
  | none => []

/-! ## Cursor pager (cursor_pagination.py lines 17-137)

The storage collaborator is abstracted, as the spec prescribes, into a
fetch capability: a function taking the optional inequality filter on
the ordering key (direction plus decoded cursor value) and the row
limit, and returning an ordered list of items.  `keyStr` models
`str(getattr(item, cursor_column.name))`, the textual form of an item's
ordering key used by `encode_cursor`. -/

/-- Traversal direction of `cursor_paginate` (line 56). -/
inductive Direction
  | forward
  | backward
  deriving DecidableEq

/-- `CursorPaginationParams` (lines 17-23): optional opaque cursor and a
page-size limit.  The class declares no lower or upper bound on
`limit`. -/
structure CursorPaginationParams where
  cursor : Option (List Nat)
  limit : Int
  deriving DecidableEq

/-- `CursorPaginationResponse` (lines 26-35). -/
structure CursorPaginationResponse (α : Type) where
  data : List α
  next_cursor : Option (List Nat)
  previous_cursor : Option (List Nat)
  has_next : Bool
  has_previous : Bool

/-- Effective limit (line 98): `limit = min(params.limit, maxPageSize)`. -/
def effectiveLimit (params : CursorPaginationParams) (maxPageSize : Int) : Int :=
  min params.limit maxPageSize

/-- Decoded cursor value (lines 100-103).  Python keeps `None` when no
cursor (or a falsy empty-string cursor) is supplied and the decoded
string otherwise; `None` and `""` are both falsy and the value is only
ever used behind truthiness tests, so both are modelled as `[]`. -/
def cursorValue : Option (List Nat) → List Nat
  | none => []
  | some c => if c.isEmpty then [] else decode_cursor c

/-- The inequality filter handed to the query (lines 105-110): applied
only when the decoded cursor value is truthy, strict in the requested
direction. -/
def cursorFilter (cursorArg : Option (List Nat)) (dir : Direction) :
    Option (Direction × List Nat) :=
  if (cursorValue cursorArg).isEmpty then none else some (dir, cursorValue cursorArg)

/-- The over-fetch (lines 112-117): the capability is asked for exactly
`limit + 1` items. -/
def fetchedItems {α : Type} (fetch : Option (Direction × List Nat) → Int → List α)
    (cursorArg : Option (List Nat)) (dir : Direction) (limit : Int) : List α :=
  fetch (cursorFilter cursorArg dir) (limit + 1)

/-- `has_more` (line 120): more than `limit` items came back. -/
def hasMore {α : Type} (fetch : Option (Direction × List Nat) → Int → List α)
    (cursorArg : Option (List Nat)) (dir : Direction) (limit : Int) : Bool :=
  decide (limit < ((fetchedItems fetch cursorArg dir limit).length : Int))

/-- The returned page (lines 120-122): trim to `items[:limit]` when an
extra item was fetched. -/
def pageItems {α : Type} (fetch : Option (Direction × List Nat) → Int → List α)
    (cursorArg : Option (List Nat)) (dir : Direction) (limit : Int) : List α :=
  if hasMore fetch cursorArg dir limit
  then pyTake (fetchedItems fetch cursorArg dir limit) limit
  else fetchedItems fetch cursorArg dir limit

/-- Body of `cursor_paginate` after the limit clamp (lines 100-137),
returning `(items, next_cursor, previous_cursor)`.  `next_cursor` is set
only under `if items:` and `if has_more:` (lines 128-131), modelled with
`getLast?` which is `none` exactly on an empty page; `previous_cursor`
only under `if items:` and `if cursor_value:` (lines 133-135). -/
def cursorPaginateWith {α : Type} (fetch : Option (Direction × List Nat) → Int → List α)
    (keyStr : α → List Nat) (cursorArg : Option (List Nat)) (dir : Direction)
    (limit : Int) : List α × Option (List Nat) × Option (List Nat) :=
  (pageItems fetch cursorArg dir limit,
   if hasMore fetch cursorArg dir limit
   then (pageItems fetch cursorArg dir limit).getLast?.map
     (fun it => encode_cursor (keyStr it))
   else none,
   if (cursorValue cursorArg).isEmpty then none
   else (pageItems fetch cursorArg dir limit).head?.map
     (fun it => encode_cursor (keyStr it)))

/-- `cursor_paginate` (lines 51-137). -/
def cursor_paginate {α : Type} (fetch : Option (Direction × List Nat) → Int → List α)
    (keyStr : α → List Nat) (params : CursorPaginationParams) (dir : Direction)
    (maxPageSize : Int) : List α × Option (List Nat) × Option (List Nat) :=
  cursorPaginateWith fetch keyStr params.cursor dir (effectiveLimit params maxPageSize)

/-- Response assembly from the tuple, as in the documented usage
(lines 89-95): `has_next`/`has_previous` are the presence of the
corresponding cursor. -/
def mkCursorResponse {α : Type} (t : List α × Option (List Nat) × Option (List Nat)) :
    CursorPaginationResponse α :=
  { data := t.1, next_cursor := t.2.1, previous_cursor := t.2.2,
    has_next := t.2.1.isSome, has_previous := t.2.2.isSome }

/-! ## Offset pager (offset_pagination.py) -/

/-- `OffsetPaginationParams` (lines 17-33): pydantic validates
`page ≥ 1` and `1 ≤ limit ≤ maxPageSize`; those validated bounds appear
as hypotheses of the theorems below. -/
structure OffsetPaginationParams where
  page : Int
  limit : Int
  deriving DecidableEq

/-- Derived offset (lines 27-30): `(page - 1) * limit`. -/
def OffsetPaginationParams.offset (p : OffsetPaginationParams) : Int :=
  (p.page - 1) * p.limit

/-- `OffsetPaginationMeta` (lines 36-43). -/
structure OffsetPaginationMeta where
  current_page : Int
  page_size : Int
  total_items : Int
  total_pages : Int
  has_next : Bool
  has_previous : Bool
  deriving DecidableEq

/-- `OffsetPaginationResponse` (lines 46-52). -/
structure OffsetPaginationResponse (α : Type) where
  data : List α
  pagination : OffsetPaginationMeta

/-- Exact ceiling division on integers, the mathematical value of
Python `math.ceil(a / b)` for `b > 0` (Python computes it through float
division; the model uses the exact quotient). -/
def ceil_div (a b : Int) : Int :=
  (a + b - 1) / b

/-- `offset_paginate` (lines 55-116) over a concrete collection given in
query order: the derived count query counts the same collection, the
window is `offset`/`limit` applied to it.  Returns `(items, total)`. -/
def offset_paginate {α : Type} (db : List α) (params : OffsetPaginationParams) :
    List α × Int :=
  ((db.drop params.offset.toNat).take params.limit.toNat, (db.length : Int))

/-- `create_pagination_response` (lines 119-149). -/
def create_pagination_response {α : Type} (items : List α)
    (total_items page limit : Int) : OffsetPaginationResponse α :=
  { data := items,
    pagination :=
      { current_page := page,
        page_size := limit,
        total_items := total_items,
        total_pages := if 0 < limit then ceil_div total_items limit else 0,
        has_next := decide (page < (if 0 < limit then ceil_div total_items limit else 0)),
        has_previous := decide (1 < page) } }

/-! ## Concrete collection instances used by the scenario claims -/

/-- Decimal digits of a natural number as ASCII bytes, fuel-indexed so
that it is structurally recursive; model of Python `str(n)`. -/
def decReprAux : Nat → Nat → List Nat
  | 0, _ => []
  | fuel + 1, n => if n < 10 then [48 + n] else decReprAux fuel (n / 10) ++ [48 + n % 10]

/-- Textual representation of a natural ordering key, model of
`str(value)` for an integer key column. -/
def decRepr (n : Nat) : List Nat :=
  decReprAux (n + 1) n

/-- Parse ASCII decimal bytes into a natural number. -/
def parseDecAux : List Nat → Nat → Option Nat
  | [], acc => some acc
  | c :: r, acc =>
    if 48 ≤ c ∧ c ≤ 57 then parseDecAux r (acc * 10 + (c - 48)) else none

/-- Parse an entire decimal string; `none` on empty or non-digit input.
Models the storage engine coercing the textual cursor back to the
integer key domain before comparing. -/
def parseDec (s : List Nat) : Option Nat :=
  if s.isEmpty then none else parseDecAux s 0

/-- A fetch capability over an integer-keyed collection listed in
ascending key order: apply the strict inequality filter (coercing the
cursor text to a number, as the storage engine does for an integer
column), then the row limit.  Items are identified with their keys. -/
def natDbFetch (db : List Nat) (filt : Option (Direction × List Nat)) (n : Int) :
    List Nat :=
  let fil := match filt with
    | none => db
    | some (Direction.forward, cv) =>
      db.filter (fun k => match parseDec cv with
        | some v => decide (v < k)
        | none => false)
    | some (Direction.backward, cv) =>
      db.filter (fun k => match parseDec cv with
        | some v => decide (k < v)
        | none => false)
  pyTake fil n

/-! ## Codec lemmas -/

theorem b64idx_b64chr : ∀ i, i < 64 → b64idx (b64chr i) = some i := by decide

theorem b64chr_ne_pad : ∀ i, i < 64 → ¬ (b64chr i = 61) := by decide

theorem isKept_b64chr : ∀ i, i < 64 → isKept (b64chr i) = true := by decide

theorem isKept_pad : isKept 61 = true := by decide

theorem b64encode_filter_eq : ∀ (l : List Nat), (∀ b ∈ l, b < 256) →
    (b64encodeBytes l).filter isKept = b64encodeBytes l
  | [] => by intro _; rfl
  | [a] => by
    intro h
    have ha : a < 256 := h a (by simp)
    have k1 : isKept (b64chr (a / 4)) = true := isKept_b64chr _ (by omega)
    have k2 : isKept (b64chr (a % 4 * 16)) = true := isKept_b64chr _ (by omega)
    simp [b64encodeBytes, List.filter_cons, k1, k2, isKept_pad]
  | [a, b] => by
    intro h
    have ha : a < 256 := h a (by simp)
    have hb : b < 256 := h b (by simp)
    have k1 : isKept (b64chr (a / 4)) = true := isKept_b64chr _ (by omega)
    have k2 : isKept (b64chr (a % 4 * 16 + b / 16)) = true := isKept_b64chr _ (by omega)
    have k3 : isKept (b64chr (b % 16 * 4)) = true := isKept_b64chr _ (by omega)
    simp [b64encodeBytes, List.filter_cons, k1, k2, k3, isKept_pad]
  | a :: b :: c :: rest => by
    intro h
    have ha : a < 256 := h a (by simp)
    have hb : b < 256 := h b (by simp)
    have hc : c < 256 := h c (by simp)
    have k1 : isKept (b64chr (a / 4)) = true := isKept_b64chr _ (by omega)
    have k2 : isKept (b64chr (a % 4 * 16 + b / 16)) = true := isKept_b64chr _ (by omega)
    have k3 : isKept (b64chr (b % 16 * 4 + c / 64)) = true := isKept_b64chr _ (by omega)
    have k4 : isKept (b64chr (c % 64)) = true := isKept_b64chr _ (by omega)
    have ih := b64encode_filter_eq rest
      (fun y hy => h y (List.mem_cons_of_mem _ (List.mem_cons_of_mem _ (List.mem_cons_of_mem _ hy))))
    simp [b64encodeBytes, List.filter_cons, k1, k2, k3, k4, ih]

theorem b64encode_len_mod : ∀ (l : List Nat), (b64encodeBytes l).length % 4 = 0
  | [] => by simp [b64encodeBytes]
  | [_] => by simp [b64encodeBytes]
  | [_, _] => by simp [b64encodeBytes]
  | _ :: _ :: _ :: rest => by
    have ih := b64encode_len_mod rest
    simp [b64encodeBytes]
    omega

theorem b64decode_b64encode : ∀ (l : List Nat), (∀ b ∈ l, b < 256) →
    b64decodeQuads (b64encodeBytes l) = some l
  | [] => by intro _; simp [b64encodeBytes, b64decodeQuads]
  | [a] => by
    intro h
    have ha : a < 256 := h a (by simp)
    have e1 := b64idx_b64chr (a / 4) (by omega)
    have e2 := b64idx_b64chr (a % 4 * 16) (by omega)
    simp only [b64encodeBytes, b64decodeQuads, e1, e2]
    simp only [and_self, if_pos, if_true, Option.some.injEq, List.cons.injEq,
      eq_self_iff_true, and_true]
    omega
  | [a, b] => by
    intro h
    have ha : a < 256 := h a (by simp)
    have hb : b < 256 := h b (by simp)
    have e1 := b64idx_b64chr (a / 4) (by omega)
    have e2 := b64idx_b64chr (a % 4 * 16 + b / 16) (by omega)
    have e3 := b64idx_b64chr (b % 16 * 4) (by omega)
    have n3 := b64chr_ne_pad (b % 16 * 4) (by omega)
    simp only [b64encodeBytes, b64decodeQuads, e1, e2, e3, if_neg n3]
    simp only [if_pos, if_true, Option.some.injEq, List.cons.injEq,
      eq_self_iff_true, and_true]
    omega
  | a :: b :: c :: rest => by
    intro h
    have ha : a < 256 := h a (by simp)
    have hb : b < 256 := h b (by simp)
    have hc : c < 256 := h c (by simp)
    have e1 := b64idx_b64chr (a / 4) (by omega)
    have e2 := b64idx_b64chr (a % 4 * 16 + b / 16) (by omega)
    have e3 := b64idx_b64chr (b % 16 * 4 + c / 64) (by omega)
    have e4 := b64idx_b64chr (c % 64) (by omega)
    have n3 := b64chr_ne_pad (b % 16 * 4 + c / 64) (by omega)
    have n4 := b64chr_ne_pad (c % 64) (by omega)
    have ih := b64decode_b64encode rest
      (fun y hy => h y (List.mem_cons_of_mem _ (List.mem_cons_of_mem _ (List.mem_cons_of_mem _ hy))))
    simp only [b64encodeBytes, b64decodeQuads, e1, e2, e3, e4, if_neg n3, if_neg n4, ih]
    simp only [Option.some.injEq, List.cons.injEq, eq_self_iff_true, and_true]
    omega

/-- Base64 round-trip at the byte level. -/
theorem b64_roundtrip (l : List Nat) (h : ∀ b ∈ l, b < 256) :
    b64decodeOpt (b64encodeBytes l) = some l := by
  unfold b64decodeOpt
  rw [b64encode_filter_eq l h, if_pos (b64encode_len_mod l)]
  exact b64decode_b64encode l h


/-! ## Pager helper lemmas -/

theorem pyTake_of_nonneg {α : Type} (l : List α) (n : Int) (h : 0 ≤ n) :
    pyTake l n = l.take n.toNat :=
  if_pos h

theorem pyTake_length_le {α : Type} (l : List α) (n : Int) (h : 0 ≤ n) :
    ((pyTake l n).length : Int) ≤ n := by
  rw [pyTake_of_nonneg l n h]
  simp [List.length_take]
  omega

theorem natDbFetch_length_le (db : List Nat) (f : Option (Direction × List Nat))
    (n : Int) (h : 0 ≤ n) : ((natDbFetch db f n).length : Int) ≤ n := by
  unfold natDbFetch
  exact pyTake_length_le _ n h

theorem pageItems_isPrefix {α : Type} (fetch : Option (Direction × List Nat) → Int → List α)
    (cursorArg : Option (List Nat)) (dir : Direction) (limit : Int) :
    List.IsPrefix (pageItems fetch cursorArg dir limit)
      (fetchedItems fetch cursorArg dir limit) := by
  unfold pageItems pyTake
  split
  · split
    · exact List.take_prefix _ _
    · exact List.take_prefix _ _
  · exact List.prefix_rfl

theorem pageItems_length_le {α : Type} (fetch : Option (Direction × List Nat) → Int → List α)
    (cursorArg : Option (List Nat)) (dir : Direction) (limit : Int) (h0 : 0 ≤ limit) :
    ((pageItems fetch cursorArg dir limit).length : Int) ≤ limit := by
  unfold pageItems
  cases hm : hasMore fetch cursorArg dir limit with
  | true =>
    rw [if_pos rfl]
    exact pyTake_length_le _ _ h0
  | false =>
    rw [if_neg (by simp)]
    unfold hasMore at hm
    have := of_decide_eq_false hm
    omega

theorem cursorPaginateWith_congr {α : Type}
    (fetch : Option (Direction × List Nat) → Int → List α) (keyStr : α → List Nat)
    (a b : Option (List Nat)) (dir : Direction) (limit : Int)
    (h : cursorValue a = cursorValue b) :
    cursorPaginateWith fetch keyStr a dir limit
      = cursorPaginateWith fetch keyStr b dir limit := by
  unfold cursorPaginateWith pageItems hasMore fetchedItems cursorFilter
  rw [h]

theorem cursorValue_some_empty (c : List Nat) (hc : decode_cursor c = []) :
    cursorValue (some c) = [] := by
  show (if c.isEmpty = true then [] else decode_cursor c) = []
  split
  · rfl
  · exact hc

theorem paginate_decode_empty {α : Type}
    (fetch : Option (Direction × List Nat) → Int → List α) (keyStr : α → List Nat)
    (c : List Nat) (hc : decode_cursor c = []) (l : Int) (dir : Direction) (maxPS : Int) :
    cursor_paginate fetch keyStr ⟨some c, l⟩ dir maxPS
      = cursor_paginate fetch keyStr ⟨none, l⟩ dir maxPS := by
  show cursorPaginateWith fetch keyStr (some c) dir (min l maxPS)
      = cursorPaginateWith fetch keyStr none dir (min l maxPS)
  exact cursorPaginateWith_congr fetch keyStr (some c) none dir (min l maxPS)
    (cursorValue_some_empty c hc)

/-! ## Claim C1: codec round-trip -/

/-- C1: for every valid ordering-key value (a UTF-8 text given as its
bytes), decoding the cursor produced by encoding it returns the value
itself: `decode_cursor (encode_cursor x) = x`. -/
theorem claim1_cursor_roundtrip (x : List Nat) (hbytes : ∀ b ∈ x, b < 256)
    (hvalid : validUtf8 x = true) : decode_cursor (encode_cursor x) = x := by
  unfold decode_cursor encode_cursor
  rw [b64_roundtrip x hbytes]
  simp [hvalid]

theorem claim1_cursor_roundtrip_witness :
    decode_cursor (encode_cursor [49, 48]) = [49, 48] :=
  claim1_cursor_roundtrip [49, 48] (by decide) (by decide)

/-! ## Claim C2: over-fetch by one and trim -/

/-- C2: for every call with a conforming fetch capability (returns at
most as many rows as asked) and validated limits, the capability is
asked for exactly `L + 1` items where `L` is the effective limit;
`has_more` holds iff `L + 1` items came back; the returned page is a
prefix of the fetched sequence, has at most `L` items, and equals the
fetched sequence trimmed to `L` exactly when `has_more` holds. -/
theorem claim2_overfetch_trim {α : Type}
    (fetch : Option (Direction × List Nat) → Int → List α) (keyStr : α → List Nat)
    (params : CursorPaginationParams) (dir : Direction) (maxPS : Int)
    (hf : ∀ f n, 0 ≤ n → ((fetch f n).length : Int) ≤ n)
    (hl : 1 ≤ params.limit) (hmx : 1 ≤ maxPS) :
    fetchedItems fetch params.cursor dir (effectiveLimit params maxPS)
        = fetch (cursorFilter params.cursor dir) (effectiveLimit params maxPS + 1) ∧
    List.IsPrefix (cursor_paginate fetch keyStr params dir maxPS).1
        (fetchedItems fetch params.cursor dir (effectiveLimit params maxPS)) ∧
    ((cursor_paginate fetch keyStr params dir maxPS).1.length : Int)
        ≤ effectiveLimit params maxPS ∧
    (hasMore fetch params.cursor dir (effectiveLimit params maxPS) = true ↔
      ((fetchedItems fetch params.cursor dir (effectiveLimit params maxPS)).length : Int)
          = effectiveLimit params maxPS + 1) ∧
    (hasMore fetch params.cursor dir (effectiveLimit params maxPS) = true →
      (cursor_paginate fetch keyStr params dir maxPS).1
        = (fetchedItems fetch params.cursor dir (effectiveLimit params maxPS)).take
            (effectiveLimit params maxPS).toNat) ∧
    (hasMore fetch params.cursor dir (effectiveLimit params maxPS) = false →
      (cursor_paginate fetch keyStr params dir maxPS).1
        = fetchedItems fetch params.cursor dir (effectiveLimit params maxPS)) := by
  have hL : (1 : Int) ≤ effectiveLimit params maxPS := le_min hl hmx
  have hdata : (cursor_paginate fetch keyStr params dir maxPS).1
      = pageItems fetch params.cursor dir (effectiveLimit params maxPS) := rfl
  have hb : ((fetchedItems fetch params.cursor dir (effectiveLimit params maxPS)).length : Int)
      ≤ effectiveLimit params maxPS + 1 := hf _ _ (by omega)
  refine ⟨rfl, ?_, ?_, ?_, ?_, ?_⟩
  · rw [hdata]; exact pageItems_isPrefix fetch params.cursor dir _
  · rw [hdata]; exact pageItems_length_le fetch params.cursor dir _ (by omega)
  · unfold hasMore
    rw [decide_eq_true_eq]
    omega
  · intro h
    rw [hdata]
    unfold pageItems
    rw [if_pos h]
    exact pyTake_of_nonneg _ _ (by omega)
  · intro h
    rw [hdata]
    unfold pageItems
    rw [if_neg (by simp [h])]

theorem claim2_overfetch_trim_witness :
    hasMore (natDbFetch (List.range' 1 23)) none Direction.forward
        (effectiveLimit ⟨none, 10⟩ 100) = true ↔
      ((fetchedItems (natDbFetch (List.range' 1 23)) none Direction.forward
          (effectiveLimit ⟨none, 10⟩ 100)).length : Int)
        = effectiveLimit ⟨none, 10⟩ 100 + 1 :=
  (claim2_overfetch_trim (natDbFetch (List.range' 1 23)) decRepr ⟨none, 10⟩
    Direction.forward 100 (fun f n hn => natDbFetch_length_le _ f n hn)
    (by decide) (by decide)).2.2.2.1

/-! ## Claim C3: cursor generation (corrected) -/

/-- C3 as frozen is refuted here: this request carries a cursor (a
malformed one), the call returns a nonempty page, and yet
`previous_cursor` is absent, because the code keys `previous_cursor` on
the decoded cursor value being truthy, not on the request carrying a
cursor. -/
theorem claim3_counterexample :
    (⟨some [33, 33, 33], 10⟩ : CursorPaginationParams).cursor ≠ none ∧
    (cursor_paginate (fun _ _ => [(5 : Nat)]) decRepr ⟨some [33, 33, 33], 10⟩
        Direction.forward 100).1 ≠ [] ∧
    (cursor_paginate (fun _ _ => [(5 : Nat)]) decRepr ⟨some [33, 33, 33], 10⟩
        Direction.forward 100).2.2 = none := by
  decide

/-- C3 (amended): `next_cursor` is set, and encodes the last returned
item's key, exactly when `has_more` holds and the page is nonempty;
`previous_cursor` is set, and encodes the first returned item's key,
exactly when the request's cursor decoded to a truthy (non-empty) value
and the page is nonempty; an empty page carries no cursors. -/
theorem claim3_cursor_generation {α : Type}
    (fetch : Option (Direction × List Nat) → Int → List α) (keyStr : α → List Nat)
    (params : CursorPaginationParams) (dir : Direction) (maxPS : Int) :
    ((cursor_paginate fetch keyStr params dir maxPS).2.1.isSome = true ↔
      (hasMore fetch params.cursor dir (effectiveLimit params maxPS) = true ∧
       (cursor_paginate fetch keyStr params dir maxPS).1 ≠ [])) ∧
    (∀ x, (cursor_paginate fetch keyStr params dir maxPS).1.getLast? = some x →
      hasMore fetch params.cursor dir (effectiveLimit params maxPS) = true →
      (cursor_paginate fetch keyStr params dir maxPS).2.1
        = some (encode_cursor (keyStr x))) ∧
    ((cursor_paginate fetch keyStr params dir maxPS).2.2.isSome = true ↔
      (cursorValue params.cursor ≠ [] ∧
       (cursor_paginate fetch keyStr params dir maxPS).1 ≠ [])) ∧
    (∀ x, (cursor_paginate fetch keyStr params dir maxPS).1.head? = some x →
      cursorValue params.cursor ≠ [] →
      (cursor_paginate fetch keyStr params dir maxPS).2.2
        = some (encode_cursor (keyStr x))) ∧
    ((cursor_paginate fetch keyStr params dir maxPS).1 = [] →
      (cursor_paginate fetch keyStr params dir maxPS).2.1 = none ∧
      (cursor_paginate fetch keyStr params dir maxPS).2.2 = none) := by
  have e0 : (cursor_paginate fetch keyStr params dir maxPS).1
      = pageItems fetch params.cursor dir (effectiveLimit params maxPS) := rfl
  have e1 : (cursor_paginate fetch keyStr params dir maxPS).2.1
      = (if hasMore fetch params.cursor dir (effectiveLimit params maxPS)
         then (pageItems fetch params.cursor dir (effectiveLimit params maxPS)).getLast?.map
           (fun it => encode_cursor (keyStr it))
         else none) := rfl
  have e2 : (cursor_paginate fetch keyStr params dir maxPS).2.2
      = (if (cursorValue params.cursor).isEmpty then none
         else (pageItems fetch params.cursor dir (effectiveLimit params maxPS)).head?.map
           (fun it => encode_cursor (keyStr it))) := rfl
  refine ⟨?_, ?_, ?_, ?_, ?_⟩
  · rw [e0, e1]
    cases hm : hasMore fetch params.cursor dir (effectiveLimit params maxPS) with
    | true =>
      simp only [if_pos rfl, Option.isSome_map']
      simp [List.getLast?_isSome]
    | false => simp
  · intro x hx hm
    rw [e1, if_pos hm]
    rw [e0] at hx
    rw [hx]
    rfl
  · rw [e0, e2]
    cases hcv : (cursorValue params.cursor).isEmpty with
    | true =>
      rw [if_pos rfl]
      rw [List.isEmpty_iff] at hcv
      simp [hcv]
    | false =>
      rw [if_neg (by simp)]
      have hne : cursorValue params.cursor ≠ [] := by
        intro h
        rw [h] at hcv
        simp at hcv
      simp [Option.isSome_map', List.head?_isSome, hne]
  · intro x hx hne
    rw [e2, if_neg (by simp [List.isEmpty_iff, hne])]
    rw [e0] at hx
    rw [hx]
    rfl
  · intro h0
    rw [e0] at h0
    constructor
    · rw [e1]
      split
      · simp [h0]
      · rfl
    · rw [e2]
      split
      · rfl
      · simp [h0]

theorem claim3_cursor_generation_witness :
    (cursor_paginate (natDbFetch (List.range' 1 23)) decRepr
        ⟨some (encode_cursor (decRepr 10)), 10⟩ Direction.forward 100).2.2
      = some (encode_cursor (decRepr 11)) :=
  (claim3_cursor_generation (natDbFetch (List.range' 1 23)) decRepr
    ⟨some (encode_cursor (decRepr 10)), 10⟩ Direction.forward 100).2.2.2.1
    11 (by decide) (by decide)

/-! ## Offset pager lemmas -/

/-- `ceil_div a b` is the exact ceiling of the rational quotient for a
positive divisor: it is the least integer `q` with `a ≤ b * q`. -/
theorem ceil_div_bounds (a b : Int) (hb : 0 < b) :
    a ≤ b * ceil_div a b ∧ b * (ceil_div a b - 1) < a := by
  unfold ceil_div
  have h := Int.ediv_add_emod (a + b - 1) b
  have h2 : 0 ≤ (a + b - 1) % b := Int.emod_nonneg _ (by omega)
  have h3 : (a + b - 1) % b < b := Int.emod_lt_of_pos _ hb
  have hm : b * ((a + b - 1) / b - 1) = b * ((a + b - 1) / b) - b := by ring
  rw [hm]
  generalize hr : (a + b - 1) % b = r at h h2 h3
  generalize hq : b * ((a + b - 1) / b) = M at h ⊢
  omega

/-! ## Claim C4: offset metadata -/

/-- C4: for validated inputs, `total_pages` is the exact ceiling of
`total_items / limit` (stated both as equality with `ceil_div` and by
the two inequalities characterising a ceiling), `has_next` holds iff
`page < total_pages`, `has_previous` holds iff `page > 1`; an empty
collection yields zero pages and no next page, and a non-positive
page size yields zero pages. -/
theorem claim4_offset_meta {α : Type} (items : List α) (total page limit : Int)
    (hp : 1 ≤ page) (hl : 1 ≤ limit) (ht : 0 ≤ total) :
    ((create_pagination_response items total page limit).pagination.total_pages
        = ceil_div total limit) ∧
    (total ≤ limit *
        (create_pagination_response items total page limit).pagination.total_pages ∧
      limit * ((create_pagination_response items total page limit).pagination.total_pages
          - 1) < total) ∧
    ((create_pagination_response items total page limit).pagination.has_next = true ↔
      page < (create_pagination_response items total page limit).pagination.total_pages) ∧
    ((create_pagination_response items total page limit).pagination.has_previous = true
      ↔ 1 < page) ∧
    (total = 0 →
      (create_pagination_response items total page limit).pagination.total_pages = 0 ∧
      (create_pagination_response items total page limit).pagination.has_next = false) ∧
    (∀ l2 : Int, l2 ≤ 0 →
      (create_pagination_response items total page l2).pagination.total_pages = 0) := by
  have hpos : (0 : Int) < limit := by omega
  have e : (create_pagination_response items total page limit).pagination.total_pages
      = ceil_div total limit := by
    simp [create_pagination_response, if_pos hpos]
  refine ⟨e, ?_, ?_, ?_, ?_, ?_⟩
  · rw [e]
    exact ceil_div_bounds total limit hpos
  · rw [e]
    have e2 : (create_pagination_response items total page limit).pagination.has_next
        = decide (page < ceil_div total limit) := by
      simp [create_pagination_response, if_pos hpos]
    rw [e2, decide_eq_true_eq]
  · have e3 : (create_pagination_response items total page limit).pagination.has_previous
        = decide (1 < page) := rfl
    rw [e3, decide_eq_true_eq]
  · intro h0
    subst h0
    have t0 : ceil_div 0 limit = 0 := by
      unfold ceil_div
      have hz : (0 : Int) + limit - 1 = limit - 1 := by ring
      rw [hz]
      exact Int.ediv_eq_zero_of_lt (by omega) (by omega)
    refine ⟨by rw [e, t0], ?_⟩
    have e2 : (create_pagination_response items 0 page limit).pagination.has_next
        = decide (page < (create_pagination_response items 0 page
            limit).pagination.total_pages) := rfl
    rw [e2, e, t0, decide_eq_false_iff_not]
    omega
  · intro l2 hl2
    simp [create_pagination_response, if_neg (by omega : ¬ (0 : Int) < l2)]

theorem claim4_offset_meta_witness :
    (create_pagination_response ([] : List Nat) 25 3 10).pagination.has_next = true ↔
      3 < (create_pagination_response ([] : List Nat) 25 3 10).pagination.total_pages :=
  (claim4_offset_meta ([] : List Nat) 25 3 10 (by decide) (by decide) (by decide)).2.2.1

/-! ## Claim C9: offset formula -/

/-- C9: for validated parameters, the derived offset is
`(page - 1) * limit`, it is never negative, and page 1 starts at
offset 0. -/
theorem claim9_offset_formula (p : OffsetPaginationParams)
    (hp : 1 ≤ p.page) (hl : 1 ≤ p.limit) :
    p.offset = (p.page - 1) * p.limit ∧ 0 ≤ p.offset ∧
      (p.page = 1 → p.offset = 0) := by
  refine ⟨rfl, ?_, ?_⟩
  · unfold OffsetPaginationParams.offset
    exact mul_nonneg (by omega) (by omega)
  · intro h1
    unfold OffsetPaginationParams.offset
    rw [h1]
    ring

theorem claim9_offset_formula_witness :
    OffsetPaginationParams.offset ⟨3, 10⟩ = ((3 : Int) - 1) * 10 ∧
      0 ≤ OffsetPaginationParams.offset ⟨3, 10⟩ ∧
      ((3 : Int) = 1 → OffsetPaginationParams.offset ⟨3, 10⟩ = 0) :=
  claim9_offset_formula ⟨3, 10⟩ (by decide) (by decide)

/-! ## Claim C8: out-of-range page -/

/-- C8: an offset request whose page lies beyond `total_pages` yields an
empty item list together with the true total count, the assembled
metadata still reports the true `total_items` and the ceiling
`total_pages`, and `has_next` is false; nothing fails. -/
theorem claim8_out_of_range {α : Type} (db : List α) (page limit : Int)
    (hp : 1 ≤ page) (hl : 1 ≤ limit)
    (hbeyond : ceil_div (db.length : Int) limit < page) :
    (offset_paginate db ⟨page, limit⟩).1 = [] ∧
    (offset_paginate db ⟨page, limit⟩).2 = (db.length : Int) ∧
    (create_pagination_response (offset_paginate db ⟨page, limit⟩).1
        (offset_paginate db ⟨page, limit⟩).2 page limit).pagination.total_items
      = (db.length : Int) ∧
    (create_pagination_response (offset_paginate db ⟨page, limit⟩).1
        (offset_paginate db ⟨page, limit⟩).2 page limit).pagination.total_pages
      = ceil_div (db.length : Int) limit ∧
    (create_pagination_response (offset_paginate db ⟨page, limit⟩).1
        (offset_paginate db ⟨page, limit⟩).2 page limit).pagination.has_next
      = false := by
  have hpos : (0 : Int) < limit := by omega
  have hb := ceil_div_bounds (db.length : Int) limit hpos
  have hoff : (db.length : Int) ≤ (page - 1) * limit := by
    calc (db.length : Int) ≤ limit * ceil_div (db.length : Int) limit := hb.1
      _ ≤ limit * (page - 1) := mul_le_mul_of_nonneg_left (by omega) (by omega)
      _ = (page - 1) * limit := by ring
  have hoffeq : OffsetPaginationParams.offset ⟨page, limit⟩ = (page - 1) * limit := rfl
  have hempty : (offset_paginate db ⟨page, limit⟩).1 = [] := by
    show ((db.drop (OffsetPaginationParams.offset ⟨page, limit⟩).toNat).take
        ((limit : Int)).toNat) = []
    have hlen : db.length ≤ (OffsetPaginationParams.offset ⟨page, limit⟩).toNat := by
      rw [hoffeq]
      omega
    rw [List.drop_eq_nil_of_le hlen]
    exact List.take_nil
  refine ⟨hempty, rfl, rfl, ?_, ?_⟩
  · simp [create_pagination_response, offset_paginate, if_pos hpos]
  · have e2 : (create_pagination_response (offset_paginate db ⟨page, limit⟩).1
        (offset_paginate db ⟨page, limit⟩).2 page limit).pagination.has_next
      = decide (page < (create_pagination_response (offset_paginate db ⟨page, limit⟩).1
          (offset_paginate db ⟨page, limit⟩).2 page limit).pagination.total_pages) := rfl
    rw [e2]
    have e3 : (create_pagination_response (offset_paginate db ⟨page, limit⟩).1
        (offset_paginate db ⟨page, limit⟩).2 page limit).pagination.total_pages
      = ceil_div (db.length : Int) limit := by
      simp [create_pagination_response, offset_paginate, if_pos hpos]
    rw [e3, decide_eq_false_iff_not]
    omega

theorem claim8_out_of_range_witness :
    (offset_paginate [0, 1, 2] ⟨3, 2⟩).1 = ([] : List Nat) ∧
      (offset_paginate [0, 1, 2] ⟨3, 2⟩).2 = (3 : Int) :=
  ⟨(claim8_out_of_range [0, 1, 2] 3 2 (by decide) (by decide) (by decide)).1,
   (claim8_out_of_range [0, 1, 2] 3 2 (by decide) (by decide) (by decide)).2.1⟩

/-! ## Claim C5: limit clamping (corrected) -/

/-- C5 as frozen is refuted here: a request with `limit = 0` gets
effective limit `min 0 100 = 0`, not a value clamped up into
`[1, maxPageSize]`; `cursor_paginate` applies no lower clamp. -/
theorem claim5_counterexample :
    effectiveLimit ⟨none, 0⟩ 100 = 0 ∧ ¬ (1 ≤ effectiveLimit ⟨none, 0⟩ 100) := by
  decide

/-- C5 (amended): the effective limit is `min(request.limit,
maxPageSize)` — clamped above by `maxPageSize` but not below; a request
asking for `maxPageSize + 50` is clamped to `maxPageSize`; and whenever
the request limit lies in the validated range `limit ≥ 1` (with
`maxPageSize ≥ 1`), the effective limit lies in `[1, maxPageSize]` and
the returned page has at most `maxPageSize` items. -/
theorem claim5_effective_limit {α : Type}
    (fetch : Option (Direction × List Nat) → Int → List α) (keyStr : α → List Nat)
    (params : CursorPaginationParams) (dir : Direction) (maxPS : Int) :
    effectiveLimit params maxPS = min params.limit maxPS ∧
    effectiveLimit params maxPS ≤ maxPS ∧
    (params.limit = maxPS + 50 → effectiveLimit params maxPS = maxPS) ∧
    (1 ≤ params.limit → 1 ≤ maxPS →
      1 ≤ effectiveLimit params maxPS ∧
      ((cursor_paginate fetch keyStr params dir maxPS).1.length : Int) ≤ maxPS) := by
  refine ⟨rfl, min_le_right _ _, ?_, ?_⟩
  · intro hlim
    unfold effectiveLimit
    rw [hlim]
    exact min_eq_right (by omega)
  · intro h1 h2
    have hL : 1 ≤ effectiveLimit params maxPS := le_min h1 h2
    refine ⟨hL, ?_⟩
    have hlen := pageItems_length_le fetch params.cursor dir
      (effectiveLimit params maxPS) (by omega)
    have h3 : effectiveLimit params maxPS ≤ maxPS := min_le_right _ _
    have hdata : (cursor_paginate fetch keyStr params dir maxPS).1
        = pageItems fetch params.cursor dir (effectiveLimit params maxPS) := rfl
    rw [hdata]
    omega

theorem claim5_effective_limit_witness :
    1 ≤ effectiveLimit ⟨none, 150⟩ 100 ∧
      ((cursor_paginate (natDbFetch (List.range' 1 23)) decRepr ⟨none, 150⟩
          Direction.forward 100).1.length : Int) ≤ 100 :=
  (claim5_effective_limit (natDbFetch (List.range' 1 23)) decRepr ⟨none, 150⟩
    Direction.forward 100).2.2.2 (by decide) (by decide)

/-! ## Claim C6: fail-open decoding -/

/-- C6: `decode_cursor` maps every malformed cursor — undecodable
base64, a payload that is not valid UTF-8, or the empty string — to the
empty sentinel instead of failing, and `cursor_paginate` treats any
request whose cursor decodes to the sentinel exactly like a request
with no cursor: same output, no inequality filter, and no
`previous_cursor`. -/
theorem claim6_fail_open :
    (∀ c, b64decodeOpt c = none → decode_cursor c = []) ∧
    (∀ c p, b64decodeOpt c = some p → validUtf8 p = false → decode_cursor c = []) ∧
    decode_cursor [] = [] ∧
    (∀ c dir, decode_cursor c = [] → cursorFilter (some c) dir = none) ∧
    (∀ (α : Type) (fetch : Option (Direction × List Nat) → Int → List α)
        (keyStr : α → List Nat) (c : List Nat) (l : Int) (dir : Direction)
        (maxPS : Int), decode_cursor c = [] →
      cursor_paginate fetch keyStr ⟨some c, l⟩ dir maxPS
          = cursor_paginate fetch keyStr ⟨none, l⟩ dir maxPS ∧
      (cursor_paginate fetch keyStr ⟨some c, l⟩ dir maxPS).2.2 = none) := by
  refine ⟨?_, ?_, by decide, ?_, ?_⟩
  · intro c h
    simp [decode_cursor, h]
  · intro c p hp hv
    simp [decode_cursor, hp, hv]
  · intro c dir h
    simp [cursorFilter, cursorValue_some_empty c h]
  · intro α fetch keyStr c l dir maxPS h
    refine ⟨paginate_decode_empty fetch keyStr c h l dir maxPS, ?_⟩
    rw [paginate_decode_empty fetch keyStr c h l dir maxPS]
    rfl

theorem claim6_fail_open_witness :
    decode_cursor [110, 111, 116, 45, 118, 97, 108, 105, 100, 45, 98, 97, 115,
        101, 54, 52, 33, 33] = [] ∧
    cursor_paginate (natDbFetch (List.range' 1 23)) decRepr
        ⟨some [110, 111, 116, 45, 118, 97, 108, 105, 100, 45, 98, 97, 115,
          101, 54, 52, 33, 33], 10⟩ Direction.forward 100
      = cursor_paginate (natDbFetch (List.range' 1 23)) decRepr ⟨none, 10⟩
          Direction.forward 100 :=
  ⟨claim6_fail_open.1 _ (by decide),
   (claim6_fail_open.2.2.2.2 Nat (natDbFetch (List.range' 1 23)) decRepr _ 10
      Direction.forward 100 (claim6_fail_open.1 _ (by decide))).1⟩

/-! ## Claim C7: the 23-key forward trace -/

/-- C7: over the collection with keys 1..23 and limit 10, the first call
returns keys 1-10 with `next_cursor` encoding 10 and no
`previous_cursor`; the second call, with that cursor, returns keys 11-20
with `next_cursor` encoding 20 and `previous_cursor` encoding 11; the
third call, with the second call's cursor, returns keys 21-23 with
`has_next` false. -/
theorem claim7_trace (maxPS : Int) (hmx : 10 ≤ maxPS) :
    ((mkCursorResponse (cursor_paginate (natDbFetch (List.range' 1 23)) decRepr
        ⟨none, 10⟩ Direction.forward maxPS)).data = List.range' 1 10 ∧
     (mkCursorResponse (cursor_paginate (natDbFetch (List.range' 1 23)) decRepr
        ⟨none, 10⟩ Direction.forward maxPS)).next_cursor
       = some (encode_cursor (decRepr 10)) ∧
     (mkCursorResponse (cursor_paginate (natDbFetch (List.range' 1 23)) decRepr
        ⟨none, 10⟩ Direction.forward maxPS)).previous_cursor = none) ∧
    ((mkCursorResponse (cursor_paginate (natDbFetch (List.range' 1 23)) decRepr
        ⟨some (encode_cursor (decRepr 10)), 10⟩ Direction.forward maxPS)).data
       = List.range' 11 10 ∧
     (mkCursorResponse (cursor_paginate (natDbFetch (List.range' 1 23)) decRepr
        ⟨some (encode_cursor (decRepr 10)), 10⟩ Direction.forward maxPS)).next_cursor
       = some (encode_cursor (decRepr 20)) ∧
     (mkCursorResponse (cursor_paginate (natDbFetch (List.range' 1 23)) decRepr
        ⟨some (encode_cursor (decRepr 10)), 10⟩ Direction.forward
          maxPS)).previous_cursor = some (encode_cursor (decRepr 11))) ∧
    ((mkCursorResponse (cursor_paginate (natDbFetch (List.range' 1 23)) decRepr
        ⟨some (encode_cursor (decRepr 20)), 10⟩ Direction.forward maxPS)).data
       = List.range' 21 3 ∧
     (mkCursorResponse (cursor_paginate (natDbFetch (List.range' 1 23)) decRepr
        ⟨some (encode_cursor (decRepr 20)), 10⟩ Direction.forward maxPS)).has_next
       = false) := by
  have key : ∀ c : Option (List Nat),
      cursor_paginate (natDbFetch (List.range' 1 23)) decRepr ⟨c, 10⟩
          Direction.forward maxPS
        = cursorPaginateWith (natDbFetch (List.range' 1 23)) decRepr c
            Direction.forward 10 := by
    intro c
    unfold cursor_paginate
    congr 1
    unfold effectiveLimit
    exact min_eq_left hmx
  simp only [key]
  decide

theorem claim7_trace_witness :
    (mkCursorResponse (cursor_paginate (natDbFetch (List.range' 1 23)) decRepr
        ⟨none, 10⟩ Direction.forward 100)).data = List.range' 1 10 :=
  (claim7_trace 100 (by decide)).1.1

/-! ## Claim C10: the empty-string cursor degenerates to no cursor -/

/-- C10: encoding the empty string yields the empty string, which is
also the sentinel `decode_cursor` returns on failure; a request carrying
`encode_cursor ""`, or any cursor decoding to the empty string, is
handled exactly like a request with no cursor: identical output, no
inequality filter, and no `previous_cursor`. -/
theorem claim10_empty_cursor :
    encode_cursor [] = [] ∧
    decode_cursor (encode_cursor []) = [] ∧
    (∀ (α : Type) (fetch : Option (Direction × List Nat) → Int → List α)
        (keyStr : α → List Nat) (l : Int) (dir : Direction) (maxPS : Int),
      cursor_paginate fetch keyStr ⟨some (encode_cursor []), l⟩ dir maxPS
        = cursor_paginate fetch keyStr ⟨none, l⟩ dir maxPS) ∧
    (∀ (α : Type) (fetch : Option (Direction × List Nat) → Int → List α)
        (keyStr : α → List Nat) (c : List Nat) (l : Int) (dir : Direction)
        (maxPS : Int), decode_cursor c = [] →
      cursor_paginate fetch keyStr ⟨some c, l⟩ dir maxPS
          = cursor_paginate fetch keyStr ⟨none, l⟩ dir maxPS ∧
      cursorFilter (some c) dir = none ∧
      (cursor_paginate fetch keyStr ⟨some c, l⟩ dir maxPS).2.2 = none) := by
  refine ⟨rfl, by decide, ?_, ?_⟩
  · intro α fetch keyStr l dir maxPS
    exact paginate_decode_empty fetch keyStr (encode_cursor []) (by decide) l dir maxPS
  · intro α fetch keyStr c l dir maxPS h
    refine ⟨paginate_decode_empty fetch keyStr c h l dir maxPS, ?_, ?_⟩
    · simp [cursorFilter, cursorValue_some_empty c h]
    · rw [paginate_decode_empty fetch keyStr c h l dir maxPS]
      rfl

theorem claim10_empty_cursor_witness :
    cursor_paginate (natDbFetch (List.range' 1 23)) decRepr ⟨some [33], 10⟩
        Direction.forward 100
      = cursor_paginate (natDbFetch (List.range' 1 23)) decRepr ⟨none, 10⟩
          Direction.forward 100 :=
  (claim10_empty_cursor.2.2.2 Nat (natDbFetch (List.range' 1 23)) decRepr [33] 10
    Direction.forward 100 (by decide)).1
